import Mathlib

/-!
Shallow embedding of the reconify repository (reconciliation of HR data
against application user lists) and verification of its specification.

Source files embedded here:
- reconify_pdf_recon.py : class ReconifyReconciler, methods
  validate_input_files (lines 33-55) and find_exceptions (lines 57-97);
- streamlit_app.py : the inline reconciliation loop of main (lines 237-255);
- config_handler.py : ConfigHandler.validate_file_format (lines 105-130);
- report_formats.py : UserWiseSummary.get_user_summary_row (lines 279-299).

Tabular data (pandas DataFrames) is embedded as lists of records, one
structure per table schema.  Python str.lower is embedded as a per-character
lowercase map over the string, and membership tests on pandas Series and on
Python sets are embedded as list membership, with Python set construction
embedded as list deduplication (iteration order of a Python set is
unspecified; none of the verified properties depend on it).
-/

namespace Reconify

/-- Row of the HR data file. The three required columns of the HR table
(reconify_pdf_recon.py line 38) are Official Email Address, Employment
Status and Employee Name. -/
structure HRRow where
  official_email_address : String
  employment_status : String
  employee_name : String
deriving Repr, DecidableEq

/-- Row of the tool (application) data file. The four required columns of
the tool table (reconify_pdf_recon.py line 44) are user_email, role_name,
user_status and created_at. -/
structure ToolRow where
  user_email : String
  role_name : String
  user_status : String
  created_at : String
deriving Repr, DecidableEq

/-- Exception dictionary built by find_exceptions
(reconify_pdf_recon.py lines 68-74 and 87-93): the keys are Employee Name,
Email, and one Tool-prefixed copy of every tool data column. -/
structure ExceptionRow where
  employee_name : String
  email : String
  tool_user_email : String
  tool_role_name : String
  tool_user_status : String
  tool_created_at : String
deriving Repr, DecidableEq

/-- Embedding of Python str.lower as used on email and status values:
lowercase applied to each character of the string. -/
def strLower (s : String) : String :=
  String.mk (s.data.map Char.toLower)

/-- Recovers the tool data columns stored inside an exception row
(the Tool-prefixed keys of the exception dictionary). -/
def toolOf (x : ExceptionRow) : ToolRow :=
  { user_email := x.tool_user_email
    role_name := x.tool_role_name
    user_status := x.tool_user_status
    created_at := x.tool_created_at }

/-- Builds one exception dictionary from an employee name, an email and a
tool row, as in reconify_pdf_recon.py lines 68-74 (and 87-93, where the
name is the placeholder N/A). -/
def mkException (name email : String) (t : ToolRow) : ExceptionRow :=
  { employee_name := name
    email := email
    tool_user_email := t.user_email
    tool_role_name := t.role_name
    tool_user_status := t.user_status
    tool_created_at := t.created_at }

/-- Normalization step of ReconifyReconciler.validate_input_files
(reconify_pdf_recon.py lines 48-50): the email column of both tables is
lower-cased for case-insensitive matching. No other transformation (in
particular no whitespace trimming) is applied. -/
def validate_input_files (hr : List HRRow) (tool : List ToolRow) :
    List HRRow × List ToolRow :=
  (hr.map (fun h => { h with official_email_address := strLower h.official_email_address }),
   tool.map (fun t => { t with user_email := strLower t.user_email }))

/-- Application statuses treated as already-inactive by find_exceptions
(reconify_pdf_recon.py line 66). -/
def inactive_equivalents : List String := ["inactive", "disabled"]

/-- HR row selected by the inactive filter of find_exceptions
(reconify_pdf_recon.py line 62): Employment Status lower-cases to
inactive. -/
def inactiveStatus (h : HRRow) : Bool :=
  strLower h.employment_status == "inactive"

/-- Tool row status test of find_exceptions (reconify_pdf_recon.py line
66): user_status lower-cased is not in the inactive-equivalent list. -/
def okStatus (t : ToolRow) : Bool :=
  !(inactive_equivalents.contains (strLower t.user_status))

/-- First loop of find_exceptions (reconify_pdf_recon.py lines 61-76):
for every HR row whose Employment Status lower-cases to inactive, and every
tool row with the same email whose user_status is not inactive-equivalent,
one exception dictionary is appended. -/
def revoke_exceptions (hr : List HRRow) (tool : List ToolRow) : List ExceptionRow :=
  (hr.filter inactiveStatus).flatMap (fun h =>
    ((tool.filter (fun t => t.user_email == h.official_email_address)).filter okStatus).map
      (fun t => mkException h.employee_name h.official_email_address t))

/-- Set difference of tool emails and HR emails
(reconify_pdf_recon.py lines 79-81), embedded as deduplicated tool emails
filtered by non-membership in the HR email column. -/
def missing_in_hr (hr : List HRRow) (tool : List ToolRow) : List String :=
  ((tool.map (fun t => t.user_email)).dedup).filter
    (fun e => !((hr.map (fun h => h.official_email_address)).contains e))

/-- Second loop of find_exceptions (reconify_pdf_recon.py lines 83-95):
for every tool email missing from HR and every tool row with that email,
one exception dictionary with Employee Name N/A is appended. -/
def not_found_exceptions (hr : List HRRow) (tool : List ToolRow) : List ExceptionRow :=
  (missing_in_hr hr tool).flatMap (fun e =>
    (tool.filter (fun t => t.user_email == e)).map (fun t => mkException "N/A" e t))

/-- ReconifyReconciler.find_exceptions (reconify_pdf_recon.py lines
57-97): the revoke exceptions of the first loop followed by the
missing-in-HR exceptions of the second loop. -/
def find_exceptions (hr : List HRRow) (tool : List ToolRow) : List ExceptionRow :=
  revoke_exceptions hr tool ++ not_found_exceptions hr tool

/-- Row of the uploaded panel data as read by the streamlit reconciliation
loop (streamlit_app.py lines 238-252): only the configured email column and
the optional role_name column are consulted. -/
structure PanelRow where
  email : String
  role_name : Option String
deriving Repr, DecidableEq

/-- Exception dictionary built by the streamlit reconciliation loop
(streamlit_app.py lines 246-252). -/
structure StreamlitException where
  email : String
  role : String
  action : String
  pre_status : String
  post_status : String
deriving Repr, DecidableEq

/-- Inline reconciliation loop of streamlit_app.py main (lines 237-255):
for each panel row whose email is not among the HR email column values, one
exception is appended with role defaulting to N/A, action revoke,
pre_status active and post_status inactive. Rows whose email is found in
HR produce nothing, whatever the statuses are. -/
def streamlit_reconcile (hrEmailValues : List String) (panel : List PanelRow) :
    List StreamlitException :=
  panel.filterMap (fun row =>
    if hrEmailValues.contains row.email then none
    else some
      { email := row.email
        role := row.role_name.getD "N/A"
        action := "revoke"
        pre_status := "active"
        post_status := "inactive" })

/-- ConfigHandler.validate_file_format (config_handler.py lines 105-130)
applied to the required-column list of the configured table format and the
column list of the DataFrame under validation: collects one error message
listing all missing required columns and one listing all extra columns,
and reports validity as emptiness of the error list. -/
def validate_file_format (required_columns df_columns : List String) :
    Bool × List String :=
  let missing_columns := required_columns.filter (fun c => !(df_columns.contains c))
  let extra_columns := df_columns.filter (fun c => !(required_columns.contains c))
  let errors :=
    (if missing_columns.isEmpty then []
     else ["Missing required columns: " ++ String.intercalate ", " missing_columns]) ++
    (if extra_columns.isEmpty then []
     else ["Extra columns found: " ++ String.intercalate ", " extra_columns])
  (errors.length == 0, errors)

/-- Row of report 4 (USER-WISE SUMMARY), report_formats.py lines 267-277. -/
structure UserSummaryRow where
  s_no : Nat
  user_email_id : String
  panel_name : String
  pre_recon_status : String
  date_of_reconciliation : String
  post_recon_status : String
  status_change : String
  action_taken : String
  comments : String
deriving Repr, DecidableEq

/-- UserWiseSummary.get_user_summary_row (report_formats.py lines
279-299). The Status Change field is No Change when pre and post status
are equal under Python string equality, and otherwise interpolates both
statuses around the (mojibake) arrow separator found in the source. The
date string produced by datetime.now is passed in as a parameter. -/
def get_user_summary_row (email panel_name pre_status post_status
    action_taken comments date_str : String) : UserSummaryRow :=
  let status_change :=
    if pre_status == post_status then "No Change"
    else pre_status ++ " â†’ " ++ post_status
  { s_no := 1
    user_email_id := email
    panel_name := panel_name
    pre_recon_status := pre_status
    date_of_reconciliation := date_str
    post_recon_status := post_status
    status_change := status_change
    action_taken := action_taken
    comments := comments }

/-- HR index test used to characterise the first loop of find_exceptions:
some HR row carries the given email with an Employment Status that
lower-cases to inactive. -/
def hrHasInactive (hr : List HRRow) (e : String) : Bool :=
  hr.any (fun h => e == h.official_email_address && inactiveStatus h)

/-! Helper lemmas about the embedded functions. -/

theorem bool_and_or_right (a b c : Bool) : (a && c || b && c) = ((a || b) && c) := by
  cases a <;> cases b <;> cases c <;> rfl

theorem countP_disjoint {α : Type} (p q : α → Bool) (l : List α)
    (h : ∀ x ∈ l, p x = true → q x = false) :
    l.countP p + l.countP q = l.countP (fun x => p x || q x) := by
  induction l with
  | nil => simp
  | cons a l ih =>
    have ha := h a (List.mem_cons_self a l)
    have ih2 := ih (fun x hx hp => h x (List.mem_cons_of_mem a hx) hp)
    simp only [List.countP_cons]
    cases hp : p a
    · cases hq : q a <;> simp [hp, hq] <;> omega
    · have hq := ha hp
      simp [hp, hq]
      omega

theorem filter_const {α : Type} (b : Bool) (l : List α) :
    l.filter (fun _ => b) = if b then l else [] := by
  cases b <;> simp

theorem filter_email_map (n e0 e : String) (l : List ToolRow) :
    (l.map (fun t => mkException n e0 t)).filter (fun x => x.email == e) =
      if e0 == e then l.map (fun t => mkException n e0 t) else [] := by
  rw [List.filter_map]
  have hc : ((fun x : ExceptionRow => x.email == e) ∘ (fun t => mkException n e0 t)) =
      (fun _ => (e0 == e)) := rfl
  rw [hc, filter_const]
  cases (e0 == e) <;> simp

theorem revoke_exceptions_cons (h : HRRow) (hr : List HRRow) (tool : List ToolRow) :
    revoke_exceptions (h :: hr) tool =
      (if inactiveStatus h then
        ((tool.filter (fun t => t.user_email == h.official_email_address)).filter okStatus).map
          (fun t => mkException h.employee_name h.official_email_address t)
       else []) ++ revoke_exceptions hr tool := by
  unfold revoke_exceptions
  rw [List.filter_cons]
  cases inactiveStatus h <;> simp

theorem filter_revoke_length (hr : List HRRow) (tool : List ToolRow) (e : String) :
    ((revoke_exceptions hr tool).filter (fun x => x.email == e)).length =
      hr.countP (fun h => h.official_email_address == e && inactiveStatus h) *
        tool.countP (fun t => t.user_email == e && okStatus t) := by
  induction hr with
  | nil => simp [revoke_exceptions]
  | cons h hr ih =>
    rw [revoke_exceptions_cons, List.filter_append, List.length_append, ih, List.countP_cons]
    cases hin : inactiveStatus h
    · simp [hin]
    · rw [if_pos rfl, filter_email_map]
      cases he : (h.official_email_address == e)
      · simp [he, hin]
      · have heq : h.official_email_address = e := beq_iff_eq.mp he
        subst heq
        rw [if_pos rfl, List.length_map, List.filter_filter, ← List.countP_eq_length_filter]
        have hcg : tool.countP (fun t =>
              okStatus t && (t.user_email == h.official_email_address)) =
            tool.countP (fun t => t.user_email == h.official_email_address && okStatus t) := by
          apply List.countP_congr
          intro t _
          rw [Bool.and_comm]
        rw [hcg]
        simp [hin]
        ring

theorem flat_notfound_filter (tool : List ToolRow) (e : String) :
    ∀ (l : List String), l.Nodup →
      ((l.flatMap (fun e2 => (tool.filter (fun t => t.user_email == e2)).map
          (fun t => mkException "N/A" e2 t))).filter (fun x => x.email == e)).length =
        if e ∈ l then tool.countP (fun t => t.user_email == e) else 0 := by
  intro l
  induction l with
  | nil =>
    intro _
    simp
  | cons a l ih =>
    intro hnd
    rw [List.nodup_cons] at hnd
    rw [List.flatMap_cons, List.filter_append, List.length_append, ih hnd.2, filter_email_map]
    cases hae : (a == e)
    · have hne : ¬ e = a := by
        intro hh
        rw [hh, beq_self_eq_true] at hae
        exact Bool.false_ne_true hae.symm
      simp [List.mem_cons, hne]
    · have heq : a = e := beq_iff_eq.mp hae
      subst heq
      rw [if_pos rfl, List.length_map, if_neg hnd.1, if_pos (List.mem_cons_self a l),
        ← List.countP_eq_length_filter]
      omega

theorem filter_notfound_length (hr : List HRRow) (tool : List ToolRow) (e : String) :
    ((not_found_exceptions hr tool).filter (fun x => x.email == e)).length =
      if (hr.map (fun h => h.official_email_address)).contains e then 0
      else tool.countP (fun t => t.user_email == e) := by
  have hnd : (missing_in_hr hr tool).Nodup :=
    List.Nodup.filter _ (List.nodup_dedup _)
  unfold not_found_exceptions
  rw [flat_notfound_filter tool e _ hnd]
  by_cases hm : e ∈ missing_in_hr hr tool
  · rw [if_pos hm]
    have h2 := (List.mem_filter.mp hm).2
    cases hcc : (hr.map (fun h => h.official_email_address)).contains e
    · rw [if_neg (by simp)]
    · rw [hcc] at h2
      exact absurd h2 (by simp)
  · rw [if_neg hm]
    cases hcc : (hr.map (fun h => h.official_email_address)).contains e
    · rw [if_neg (by simp)]
      have hnd2 : ¬ e ∈ (tool.map (fun t => t.user_email)).dedup := by
        intro hin
        exact hm (List.mem_filter.mpr ⟨hin, by rw [hcc]; rfl⟩)
      rw [List.mem_dedup] at hnd2
      symm
      rw [List.countP_eq_zero]
      intro t ht hbt
      exact hnd2 (List.mem_map.mpr ⟨t, ht, beq_iff_eq.mp hbt⟩)
    · rw [if_pos rfl]

theorem filter_find_exceptions (hr : List HRRow) (tool : List ToolRow) (e : String) :
    ((find_exceptions hr tool).filter (fun x => x.email == e)).length =
      hr.countP (fun h => h.official_email_address == e && inactiveStatus h) *
        tool.countP (fun t => t.user_email == e && okStatus t) +
      (if (hr.map (fun h => h.official_email_address)).contains e then 0
       else tool.countP (fun t => t.user_email == e)) := by
  unfold find_exceptions
  rw [List.filter_append, List.length_append, filter_revoke_length, filter_notfound_length]

theorem contains_eq_true_iff {l : List String} {a : String} :
    l.contains a = true ↔ a ∈ l := List.elem_iff

theorem revoke_exceptions_length (tool : List ToolRow) :
    ∀ (hr : List HRRow), (hr.map (fun h => h.official_email_address)).Nodup →
      (revoke_exceptions hr tool).length =
        tool.countP (fun t => hrHasInactive hr t.user_email && okStatus t) := by
  intro hr
  induction hr with
  | nil =>
    intro _
    simp [revoke_exceptions, hrHasInactive]
  | cons h hr ih =>
    intro hnd
    rw [List.map_cons, List.nodup_cons] at hnd
    rw [revoke_exceptions_cons, List.length_append, ih hnd.2]
    cases hin : inactiveStatus h
    · rw [if_neg (by simp), List.length_nil, Nat.zero_add]
      apply List.countP_congr
      intro t _
      unfold hrHasInactive
      rw [List.any_cons, hin]
      simp
    · rw [if_pos rfl, List.length_map, List.filter_filter, ← List.countP_eq_length_filter]
      have hdisj : ∀ t ∈ tool,
          (okStatus t && (t.user_email == h.official_email_address)) = true →
          (hrHasInactive hr t.user_email && okStatus t) = false := by
        intro t _ hp
        rw [Bool.and_eq_true] at hp
        have hte : t.user_email = h.official_email_address := beq_iff_eq.mp hp.2
        cases hq : (hrHasInactive hr t.user_email && okStatus t)
        · rfl
        · exfalso
          rw [Bool.and_eq_true] at hq
          have hq1 := hq.1
          unfold hrHasInactive at hq1
          rw [List.any_eq_true] at hq1
          obtain ⟨h2, hmem, hpred⟩ := hq1
          rw [Bool.and_eq_true] at hpred
          have h2e : t.user_email = h2.official_email_address := beq_iff_eq.mp hpred.1
          exact hnd.1 (List.mem_map.mpr ⟨h2, hmem, by rw [← h2e, hte]⟩)
      rw [countP_disjoint _ _ tool hdisj]
      apply List.countP_congr
      intro t _
      unfold hrHasInactive
      rw [List.any_cons, hin]
      cases okStatus t <;> cases (t.user_email == h.official_email_address) <;>
        cases hr.any (fun h2 => t.user_email == h2.official_email_address && inactiveStatus h2) <;>
          simp

theorem flat_notfound_length (tool : List ToolRow) :
    ∀ (l : List String), l.Nodup →
      (l.flatMap (fun e2 => (tool.filter (fun t => t.user_email == e2)).map
          (fun t => mkException "N/A" e2 t))).length =
        tool.countP (fun t => l.contains t.user_email) := by
  intro l
  induction l with
  | nil =>
    intro _
    simp
  | cons a l ih =>
    intro hnd
    rw [List.nodup_cons] at hnd
    rw [List.flatMap_cons, List.length_append, ih hnd.2, List.length_map,
      ← List.countP_eq_length_filter]
    have hdisj : ∀ t ∈ tool, (t.user_email == a) = true →
        (l.contains t.user_email) = false := by
      intro t _ hp
      have hta : t.user_email = a := beq_iff_eq.mp hp
      rw [hta]
      cases hc : l.contains a
      · rfl
      · exact absurd (contains_eq_true_iff.mp hc) hnd.1
    rw [countP_disjoint _ _ tool hdisj]
    apply List.countP_congr
    intro t _
    rw [List.contains_cons]

theorem not_found_exceptions_length (hr : List HRRow) (tool : List ToolRow) :
    (not_found_exceptions hr tool).length =
      tool.countP
        (fun t => !((hr.map (fun h => h.official_email_address)).contains t.user_email)) := by
  have hnd : (missing_in_hr hr tool).Nodup := by
    unfold missing_in_hr
    exact List.Nodup.filter _ (List.nodup_dedup _)
  unfold not_found_exceptions
  rw [flat_notfound_length tool (missing_in_hr hr tool) hnd]
  apply List.countP_congr
  intro t ht
  unfold missing_in_hr
  constructor
  · intro hc
    exact (List.mem_filter.mp (contains_eq_true_iff.mp hc)).2
  · intro hb
    apply contains_eq_true_iff.mpr
    exact List.mem_filter.mpr ⟨List.mem_dedup.mpr (List.mem_map.mpr ⟨t, ht, rfl⟩), hb⟩

theorem find_exceptions_length (hr : List HRRow) (tool : List ToolRow)
    (hnd : (hr.map (fun h => h.official_email_address)).Nodup) :
    (find_exceptions hr tool).length =
      tool.countP (fun t => hrHasInactive hr t.user_email && okStatus t) +
      tool.countP
        (fun t => !((hr.map (fun h => h.official_email_address)).contains t.user_email)) := by
  unfold find_exceptions
  rw [List.length_append, revoke_exceptions_length tool hr hnd, not_found_exceptions_length]

theorem mem_find_exceptions {hr : List HRRow} {tool : List ToolRow} {x : ExceptionRow}
    (hx : x ∈ find_exceptions hr tool) :
    (∃ h ∈ hr, inactiveStatus h = true ∧ x.email = h.official_email_address ∧
       x.employee_name = h.employee_name ∧
       ∃ t ∈ tool, toolOf x = t ∧ okStatus t = true ∧ t.user_email = h.official_email_address)
  ∨ (x.employee_name = "N/A" ∧
       (¬ x.email ∈ hr.map (fun h => h.official_email_address)) ∧
       ∃ t ∈ tool, toolOf x = t ∧ t.user_email = x.email) := by
  unfold find_exceptions at hx
  rcases List.mem_append.mp hx with hx | hx
  · left
    unfold revoke_exceptions at hx
    rw [List.mem_flatMap] at hx
    obtain ⟨h, hh, hx2⟩ := hx
    rw [List.mem_filter] at hh
    rw [List.mem_map] at hx2
    obtain ⟨t, ht, rfl⟩ := hx2
    rw [List.mem_filter] at ht
    obtain ⟨ht2, hok⟩ := ht
    rw [List.mem_filter] at ht2
    exact ⟨h, hh.1, hh.2, rfl, rfl, t, ht2.1, rfl, hok, beq_iff_eq.mp ht2.2⟩
  · right
    unfold not_found_exceptions at hx
    rw [List.mem_flatMap] at hx
    obtain ⟨e, he, hx2⟩ := hx
    unfold missing_in_hr at he
    rw [List.mem_filter] at he
    rw [List.mem_map] at hx2
    obtain ⟨t, ht, rfl⟩ := hx2
    rw [List.mem_filter] at ht
    have hnc : ¬ (e : String) ∈ hr.map (fun h => h.official_email_address) := by
      intro hmem
      have hb := he.2
      rw [contains_eq_true_iff.mpr hmem] at hb
      simp at hb
    exact ⟨rfl, hnc, t, ht.1, rfl, beq_iff_eq.mp ht.2⟩

theorem streamlit_reconcile_cons (hrEmailValues : List String) (r : PanelRow)
    (panel : List PanelRow) :
    streamlit_reconcile hrEmailValues (r :: panel) =
      (if hrEmailValues.contains r.email then []
       else [{ email := r.email
               role := r.role_name.getD "N/A"
               action := "revoke"
               pre_status := "active"
               post_status := "inactive" }]) ++
      streamlit_reconcile hrEmailValues panel := by
  unfold streamlit_reconcile
  rw [List.filterMap_cons]
  cases hrEmailValues.contains r.email <;> simp

/-! Claim theorems. -/

/-- C1 (counterexample): the claim asserts exactly one exception with
recommended action revoke and explicit pre and post statuses for an
application record whose HR status is Inactive. With a duplicated
Inactive HR row for the same email, find_exceptions emits one exception
per HR occurrence, two rows for the single application record; and the
streamlit loop, the only code path whose exceptions carry action and
status fields, emits nothing at all for an email that is present in HR. -/
theorem c1_revoke_counterexample :
    (find_exceptions
        [⟨"jane@co.com", "Inactive", "Jane"⟩, ⟨"jane@co.com", "Inactive", "Jane"⟩]
        [⟨"jane@co.com", "Admin", "Active", "2024-01-01"⟩]).length = 2
  ∧ streamlit_reconcile ["jane@co.com"] [⟨"jane@co.com", some "Admin"⟩] = [] := by
  constructor
  · decide
  · decide

/-- C1 (amended): for an email with exactly one Inactive occurrence in the
HR table, find_exceptions emits exactly one exception row per application
record bearing that email whose user_status is not inactive-equivalent;
the rows carry names, the email and the tool columns, with no explicit
classification, action or status-transition fields. -/
theorem c1_revoke_amended (hr : List HRRow) (tool : List ToolRow) (e : String)
    (h1 : hr.countP (fun h => h.official_email_address == e && inactiveStatus h) = 1)
    (h2 : (hr.map (fun h => h.official_email_address)).contains e = true) :
    ((find_exceptions hr tool).filter (fun x => x.email == e)).length =
      tool.countP (fun t => t.user_email == e && okStatus t) := by
  rw [filter_find_exceptions, h1, h2]
  simp

/-- C1 witness: Scenario A of the specification, one HR row for Jane
marked Inactive and one active tool row, gives exactly one exception. -/
theorem c1_revoke_amended_witness :
    ((find_exceptions [⟨"jane@co.com", "Inactive", "Jane"⟩]
        [⟨"jane@co.com", "Admin", "Active", "2024-01-01"⟩]).filter
        (fun x => x.email == "jane@co.com")).length =
      ([⟨"jane@co.com", "Admin", "Active", "2024-01-01"⟩] : List ToolRow).countP
        (fun t => t.user_email == "jane@co.com" && okStatus t) :=
  c1_revoke_amended _ _ _ (by decide) (by decide)

/-- C2 (counterexample): for an application record whose email is absent
from HR, the streamlit loop emits an exception whose recommended action is
revoke, not review, and whose pre and post statuses are the fixed strings
active and inactive rather than two copies of the record status. -/
theorem c2_not_found_counterexample :
    streamlit_reconcile ["jane@co.com"] [⟨"bob@co.com", none⟩] =
      [⟨"bob@co.com", "N/A", "revoke", "active", "inactive"⟩]
  ∧ ("revoke" : String) ≠ "review" := by
  constructor
  · decide
  · decide

/-- C2 (amended): the streamlit loop emits exceptions exactly for the
panel records whose email is missing from the HR email column, one per
record and in order, each carrying action revoke with fixed pre_status
active and post_status inactive; and every row of the not-found loop of
find_exceptions carries the placeholder N/A as the employee name. -/
theorem c2_not_found_amended (hrEmailValues : List String) (panel : List PanelRow)
    (hr : List HRRow) (tool : List ToolRow) :
    (streamlit_reconcile hrEmailValues panel).map
        (fun x => (x.action, x.pre_status, x.post_status)) =
      List.replicate (panel.countP (fun r => !(hrEmailValues.contains r.email)))
        ("revoke", "active", "inactive")
  ∧ (streamlit_reconcile hrEmailValues panel).map (fun x => x.email) =
      (panel.filter (fun r => !(hrEmailValues.contains r.email))).map (fun r => r.email)
  ∧ (not_found_exceptions hr tool).all (fun x => x.employee_name == "N/A") = true := by
  refine ⟨?_, ?_, ?_⟩
  · induction panel with
    | nil => rfl
    | cons r panel ih =>
      rw [streamlit_reconcile_cons, List.map_append, List.countP_cons]
      cases hc : hrEmailValues.contains r.email
      · simp [hc, List.replicate_succ, ih]
      · simp [hc, ih]
  · induction panel with
    | nil => rfl
    | cons r panel ih =>
      rw [streamlit_reconcile_cons, List.map_append, List.filter_cons]
      cases hc : hrEmailValues.contains r.email
      · simp [hc, ih]
      · simp [hc, ih]
  · rw [List.all_eq_true]
    intro x hx
    unfold not_found_exceptions at hx
    rw [List.mem_flatMap] at hx
    obtain ⟨e, _, hx2⟩ := hx
    rw [List.mem_map] at hx2
    obtain ⟨t, _, rfl⟩ := hx2
    exact beq_self_eq_true _

/-- C3 (counterexample): an application record with HR status Active and
application status Inactive produces no exception at all: find_exceptions
returns the empty list, and the streamlit loop, whose exceptions carry the
action field, also emits nothing since the email is present in HR. The
claimed MISMATCH_REACTIVATE exception with action review is never
produced. -/
theorem c3_reactivate_counterexample :
    find_exceptions [⟨"jane@co.com", "Active", "Jane"⟩]
      [⟨"jane@co.com", "Admin", "Inactive", "2024-01-01"⟩] = []
  ∧ streamlit_reconcile ["jane@co.com"] [⟨"jane@co.com", some "Admin"⟩] = [] := by
  constructor
  · decide
  · decide

/-- C3 (amended): an application record whose user_status is
inactive-equivalent and whose email appears in the HR table contributes no
exception row whatsoever: no reactivation handling exists in the code. -/
theorem c3_reactivate_amended (hr : List HRRow) (tool : List ToolRow) (r : ToolRow)
    (h1 : inactive_equivalents.contains (strLower r.user_status) = true)
    (h2 : (hr.map (fun h => h.official_email_address)).contains r.user_email = true) :
    ((find_exceptions hr tool).filter (fun x => decide (toolOf x = r))).length = 0 := by
  rw [List.length_eq_zero, List.filter_eq_nil_iff]
  intro x hx hdec
  have hxr : toolOf x = r := of_decide_eq_true hdec
  rcases mem_find_exceptions hx with
    ⟨h, _, _, _, _, t, _, hxt, hok, _⟩ | ⟨_, hnc, t, _, hxt, hte⟩
  · have htr : t = r := by rw [← hxt, hxr]
    rw [htr] at hok
    unfold okStatus at hok
    rw [h1] at hok
    simp at hok
  · have htr : t = r := by rw [← hxt, hxr]
    rw [htr] at hte
    rw [hte] at h2
    exact hnc (contains_eq_true_iff.mp h2)

/-- C3 witness: the concrete reactivation scenario, Jane active in HR and
inactive in the tool, yields zero exception rows for her record. -/
theorem c3_reactivate_amended_witness :
    ((find_exceptions [⟨"jane@co.com", "Active", "Jane"⟩]
        [⟨"jane@co.com", "Admin", "Inactive", "2024-01-01"⟩]).filter
        (fun x => decide (toolOf x =
          ⟨"jane@co.com", "Admin", "Inactive", "2024-01-01"⟩))).length = 0 :=
  c3_reactivate_amended _ _ _ (by decide) (by decide)

/-- C4 (counterexample): the classification is not determined by the last
HR occurrence of an email. Two HR tables whose last occurrence for
a@x.com carries the same status Active give different outcomes once an
earlier Inactive occurrence is present: the singleton table produces no
exception while the Inactive-then-Active table flags the record. -/
theorem c4_last_wins_counterexample :
    find_exceptions [⟨"a@x.com", "Active", "A"⟩]
      [⟨"a@x.com", "r1", "Active", "2024-01-01"⟩] = []
  ∧ (find_exceptions [⟨"a@x.com", "Inactive", "A"⟩, ⟨"a@x.com", "Active", "A"⟩]
      [⟨"a@x.com", "r1", "Active", "2024-01-01"⟩]).length = 1 := by
  constructor
  · decide
  · decide

/-- C4 (amended): there is no last-wins index; every Inactive HR
occurrence of an email acts independently. The number of exception rows
for an email equals the number of its Inactive HR occurrences times the
number of qualifying application records, plus the not-found rows when the
email is absent from HR; in particular the claimed Active-then-Inactive
instance does flag the record, agreeing with the last-wins prediction on
that one input. -/
theorem c4_last_wins_amended :
    (∀ (hr : List HRRow) (tool : List ToolRow) (e : String),
      ((find_exceptions hr tool).filter (fun x => x.email == e)).length =
        hr.countP (fun h => h.official_email_address == e && inactiveStatus h) *
          tool.countP (fun t => t.user_email == e && okStatus t) +
        (if (hr.map (fun h => h.official_email_address)).contains e then 0
         else tool.countP (fun t => t.user_email == e)))
  ∧ (find_exceptions [⟨"a@x.com", "Active", "A"⟩, ⟨"a@x.com", "Inactive", "A"⟩]
      [⟨"a@x.com", "r1", "Active", "2024-01-01"⟩]).length = 1 :=
  ⟨filter_find_exceptions, by decide⟩

/-- C5 (counterexample): the four classification counts cannot sum to the
number of application records, because a single application record can
receive two exception rows when its email has two Inactive HR
occurrences. -/
theorem c5_completeness_counterexample :
    (find_exceptions [⟨"dup@x.com", "Inactive", "D"⟩, ⟨"dup@x.com", "Inactive", "D"⟩]
        [⟨"dup@x.com", "r1", "Active", "2024-01-01"⟩]).length = 2
  ∧ ([⟨"dup@x.com", "r1", "Active", "2024-01-01"⟩] : List ToolRow).length = 1 := by
  constructor
  · decide
  · decide

/-- C5 (amended): when the HR emails are pairwise distinct, every
application record falls in exactly one of the three code-level classes,
revoke-flagged, not-found and unflagged; the class counts sum to the
number of application records, the number of emitted exception rows is the
sum of the first two counts, and no reactivate class exists. -/
theorem c5_completeness_amended (hr : List HRRow) (tool : List ToolRow)
    (hnd : (hr.map (fun h => h.official_email_address)).Nodup) :
    (find_exceptions hr tool).length =
      tool.countP (fun t => hrHasInactive hr t.user_email && okStatus t) +
      tool.countP
        (fun t => !((hr.map (fun h => h.official_email_address)).contains t.user_email))
  ∧ tool.countP (fun t => hrHasInactive hr t.user_email && okStatus t) +
      tool.countP
        (fun t => !((hr.map (fun h => h.official_email_address)).contains t.user_email)) +
      tool.countP
        (fun t => (hr.map (fun h => h.official_email_address)).contains t.user_email &&
          !(hrHasInactive hr t.user_email && okStatus t)) = tool.length := by
  refine ⟨find_exceptions_length hr tool hnd, ?_⟩
  have himp : ∀ t : ToolRow, hrHasInactive hr t.user_email = true →
      (hr.map (fun h => h.official_email_address)).contains t.user_email = true := by
    intro t hany
    unfold hrHasInactive at hany
    rw [List.any_eq_true] at hany
    obtain ⟨h2, hmem, hpred⟩ := hany
    rw [Bool.and_eq_true] at hpred
    exact contains_eq_true_iff.mpr
      (List.mem_map.mpr ⟨h2, hmem, (beq_iff_eq.mp hpred.1).symm⟩)
  have hd1 : ∀ t ∈ tool, (hrHasInactive hr t.user_email && okStatus t) = true →
      (!((hr.map (fun h => h.official_email_address)).contains t.user_email)) = false := by
    intro t _ hp
    rw [Bool.and_eq_true] at hp
    rw [himp t hp.1]
    rfl
  rw [countP_disjoint _ _ tool hd1]
  have hd2 : ∀ t ∈ tool,
      ((hrHasInactive hr t.user_email && okStatus t) ||
        !((hr.map (fun h => h.official_email_address)).contains t.user_email)) = true →
      ((hr.map (fun h => h.official_email_address)).contains t.user_email &&
        !(hrHasInactive hr t.user_email && okStatus t)) = false := by
    intro t _ hp
    cases hc : (hr.map (fun h => h.official_email_address)).contains t.user_email
    · rfl
    · rw [hc] at hp
      cases hq : (hrHasInactive hr t.user_email && okStatus t)
      · rw [hq] at hp
        exact absurd hp (by decide)
      · rfl
  rw [countP_disjoint _ _ tool hd2]
  have hall : tool.countP (fun t =>
        ((hrHasInactive hr t.user_email && okStatus t) ||
          !((hr.map (fun h => h.official_email_address)).contains t.user_email)) ||
        ((hr.map (fun h => h.official_email_address)).contains t.user_email &&
          !(hrHasInactive hr t.user_email && okStatus t))) =
      tool.countP (fun _ => true) := by
    apply List.countP_congr
    intro t _
    cases hc : (hr.map (fun h => h.official_email_address)).contains t.user_email
    · have ha : hrHasInactive hr t.user_email = false := by
        cases hh : hrHasInactive hr t.user_email
        · rfl
        · rw [himp t hh] at hc
          exact absurd hc (by decide)
      simp [ha]
    · cases (hrHasInactive hr t.user_email && okStatus t) <;> simp
  rw [hall, List.countP_true]

/-- C5 witness: one Inactive HR employee, one distinct Active HR employee,
and three application records, one revoke-flagged, one unknown to HR and
one matching. -/
theorem c5_completeness_amended_witness :
    (find_exceptions [⟨"a@x.com", "Inactive", "A"⟩, ⟨"b@x.com", "Active", "B"⟩]
        [⟨"a@x.com", "r1", "Active", "2024-01-01"⟩,
         ⟨"c@x.com", "r2", "Active", "2024-01-01"⟩,
         ⟨"b@x.com", "r3", "Active", "2024-01-01"⟩]).length =
      ([⟨"a@x.com", "r1", "Active", "2024-01-01"⟩,
        ⟨"c@x.com", "r2", "Active", "2024-01-01"⟩,
        ⟨"b@x.com", "r3", "Active", "2024-01-01"⟩] : List ToolRow).countP
        (fun t => hrHasInactive
          [⟨"a@x.com", "Inactive", "A"⟩, ⟨"b@x.com", "Active", "B"⟩] t.user_email &&
          okStatus t) +
      ([⟨"a@x.com", "r1", "Active", "2024-01-01"⟩,
        ⟨"c@x.com", "r2", "Active", "2024-01-01"⟩,
        ⟨"b@x.com", "r3", "Active", "2024-01-01"⟩] : List ToolRow).countP
        (fun t => !((([⟨"a@x.com", "Inactive", "A"⟩, ⟨"b@x.com", "Active", "B"⟩] :
            List HRRow).map (fun h => h.official_email_address)).contains t.user_email))
  ∧ ([⟨"a@x.com", "r1", "Active", "2024-01-01"⟩,
      ⟨"c@x.com", "r2", "Active", "2024-01-01"⟩,
      ⟨"b@x.com", "r3", "Active", "2024-01-01"⟩] : List ToolRow).countP
        (fun t => hrHasInactive
          [⟨"a@x.com", "Inactive", "A"⟩, ⟨"b@x.com", "Active", "B"⟩] t.user_email &&
          okStatus t) +
      ([⟨"a@x.com", "r1", "Active", "2024-01-01"⟩,
        ⟨"c@x.com", "r2", "Active", "2024-01-01"⟩,
        ⟨"b@x.com", "r3", "Active", "2024-01-01"⟩] : List ToolRow).countP
        (fun t => !((([⟨"a@x.com", "Inactive", "A"⟩, ⟨"b@x.com", "Active", "B"⟩] :
            List HRRow).map (fun h => h.official_email_address)).contains t.user_email)) +
      ([⟨"a@x.com", "r1", "Active", "2024-01-01"⟩,
        ⟨"c@x.com", "r2", "Active", "2024-01-01"⟩,
        ⟨"b@x.com", "r3", "Active", "2024-01-01"⟩] : List ToolRow).countP
        (fun t => ((([⟨"a@x.com", "Inactive", "A"⟩, ⟨"b@x.com", "Active", "B"⟩] :
            List HRRow).map (fun h => h.official_email_address)).contains t.user_email) &&
          !(hrHasInactive
            [⟨"a@x.com", "Inactive", "A"⟩, ⟨"b@x.com", "Active", "B"⟩] t.user_email &&
            okStatus t)) =
      ([⟨"a@x.com", "r1", "Active", "2024-01-01"⟩,
        ⟨"c@x.com", "r2", "Active", "2024-01-01"⟩,
        ⟨"b@x.com", "r3", "Active", "2024-01-01"⟩] : List ToolRow).length :=
  c5_completeness_amended _ _ (by decide)

/-- C6: validate_file_format reports validity exactly when the column set
matches the required columns as sets, every required column present and no
column outside the required list; when invalid, the error list consists of
one message enumerating the full list of missing required columns by name
and one message enumerating the full list of extra columns by name. -/
theorem c6_validate_schema (required_columns df_columns : List String) :
    ((validate_file_format required_columns df_columns).1 = true ↔
      ((∀ c ∈ required_columns, c ∈ df_columns) ∧
       (∀ c ∈ df_columns, c ∈ required_columns)))
  ∧ (validate_file_format required_columns df_columns).2 =
      (if required_columns.filter (fun c => !(df_columns.contains c)) = [] then []
       else ["Missing required columns: " ++ String.intercalate ", "
          (required_columns.filter (fun c => !(df_columns.contains c)))]) ++
      (if df_columns.filter (fun c => !(required_columns.contains c)) = [] then []
       else ["Extra columns found: " ++ String.intercalate ", "
          (df_columns.filter (fun c => !(required_columns.contains c)))]) := by
  have hmem1 : required_columns.filter (fun c => !(df_columns.contains c)) = [] ↔
      (∀ c ∈ required_columns, c ∈ df_columns) := by
    rw [List.filter_eq_nil_iff]
    constructor
    · intro hh c hc
      have hn := hh c hc
      cases hcc : df_columns.contains c
      · exact absurd (by rw [hcc]; rfl) hn
      · exact contains_eq_true_iff.mp hcc
    · intro hh c hc
      rw [contains_eq_true_iff.mpr (hh c hc)]
      simp
  have hmem2 : df_columns.filter (fun c => !(required_columns.contains c)) = [] ↔
      (∀ c ∈ df_columns, c ∈ required_columns) := by
    rw [List.filter_eq_nil_iff]
    constructor
    · intro hh c hc
      have hn := hh c hc
      cases hcc : required_columns.contains c
      · exact absurd (by rw [hcc]; rfl) hn
      · exact contains_eq_true_iff.mp hcc
    · intro hh c hc
      rw [contains_eq_true_iff.mpr (hh c hc)]
      simp
  have hfst : (validate_file_format required_columns df_columns).1 =
      ((required_columns.filter (fun c => !(df_columns.contains c))).isEmpty &&
       (df_columns.filter (fun c => !(required_columns.contains c))).isEmpty) := by
    show (((if (required_columns.filter (fun c => !(df_columns.contains c))).isEmpty
            then ([] : List String)
            else ["Missing required columns: " ++ String.intercalate ", "
              (required_columns.filter (fun c => !(df_columns.contains c)))]) ++
          (if (df_columns.filter (fun c => !(required_columns.contains c))).isEmpty
            then ([] : List String)
            else ["Extra columns found: " ++ String.intercalate ", "
              (df_columns.filter (fun c => !(required_columns.contains c)))])).length == 0) = _
    cases hM : (required_columns.filter (fun c => !(df_columns.contains c))).isEmpty <;>
      cases hE : (df_columns.filter (fun c => !(required_columns.contains c))).isEmpty <;>
        rfl
  constructor
  · rw [hfst, Bool.and_eq_true, List.isEmpty_iff, List.isEmpty_iff, hmem1, hmem2]
  · have hsnd : (validate_file_format required_columns df_columns).2 =
        (if (required_columns.filter (fun c => !(df_columns.contains c))).isEmpty then []
         else ["Missing required columns: " ++ String.intercalate ", "
            (required_columns.filter (fun c => !(df_columns.contains c)))]) ++
        (if (df_columns.filter (fun c => !(required_columns.contains c))).isEmpty then []
         else ["Extra columns found: " ++ String.intercalate ", "
            (df_columns.filter (fun c => !(required_columns.contains c)))]) := rfl
    rw [hsnd]
    congr 1
    · by_cases hM : required_columns.filter (fun c => !(df_columns.contains c)) = []
      · rw [hM]
        rfl
      · rw [if_neg (fun hh => hM (List.isEmpty_iff.mp hh)), if_neg hM]
    · by_cases hE : df_columns.filter (fun c => !(required_columns.contains c)) = []
      · rw [hE]
        rfl
      · rw [if_neg (fun hh => hE (List.isEmpty_iff.mp hh)), if_neg hE]

/-- C6 witness: a table providing exactly the required columns validates,
and a table missing the column user_status while adding the column extra
is rejected with both columns named in the error list. -/
theorem c6_validate_schema_witness :
    (validate_file_format ["user_email", "user_status"] ["user_email", "user_status"]).1 = true
  ∧ (validate_file_format ["user_email", "user_status"] ["user_email", "extra"]).2 =
      ["Missing required columns: user_status", "Extra columns found: extra"] := by
  constructor
  · exact (c6_validate_schema ["user_email", "user_status"]
      ["user_email", "user_status"]).1.mpr (by decide)
  · rw [(c6_validate_schema ["user_email", "user_status"] ["user_email", "extra"]).2]
    decide

/-- C7 (counterexample): normalization does not trim surrounding
whitespace. An HR email with a leading blank keeps that blank after
validate_input_files lower-cases it, and as a consequence the matching
tool record is treated as missing from HR, producing the N/A not-found
row instead of a revoke row naming the employee. -/
theorem c7_trim_counterexample :
    (validate_input_files [⟨" JANE@co.com", "Inactive", "Jane"⟩]
        [⟨"jane@co.com", "Admin", "Active", "2024-01-01"⟩]).1 =
      [⟨" jane@co.com", "Inactive", "Jane"⟩]
  ∧ find_exceptions
      (validate_input_files [⟨" JANE@co.com", "Inactive", "Jane"⟩]
        [⟨"jane@co.com", "Admin", "Active", "2024-01-01"⟩]).1
      (validate_input_files [⟨" JANE@co.com", "Inactive", "Jane"⟩]
        [⟨"jane@co.com", "Admin", "Active", "2024-01-01"⟩]).2 =
      [⟨"N/A", "jane@co.com", "jane@co.com", "Admin", "Active", "2024-01-01"⟩] := by
  constructor
  · decide
  · decide

/-- C7 (amended): normalization lower-cases, and only lower-cases, the
email values of both sources; any pair of emails that agree after
lower-casing is matched, so that with an HR status lower-casing to active
the reconciliation yields no exception, a MATCH, whatever the letter case
of either email. -/
theorem c7_case_insensitive_amended
    (eh et hst nm rl tst cr : String)
    (h1 : strLower eh = strLower et) (h2 : strLower hst = "active") :
    find_exceptions
        (validate_input_files [⟨eh, hst, nm⟩] [⟨et, rl, tst, cr⟩]).1
        (validate_input_files [⟨eh, hst, nm⟩] [⟨et, rl, tst, cr⟩]).2 = [] := by
  have hfst : (validate_input_files [⟨eh, hst, nm⟩] [⟨et, rl, tst, cr⟩]).1 =
      [⟨strLower eh, hst, nm⟩] := rfl
  have hsnd : (validate_input_files [⟨eh, hst, nm⟩] [⟨et, rl, tst, cr⟩]).2 =
      [⟨strLower et, rl, tst, cr⟩] := rfl
  rw [hfst, hsnd]
  have hia : inactiveStatus ⟨strLower eh, hst, nm⟩ = false := by
    unfold inactiveStatus
    show (strLower hst == "inactive") = false
    rw [h2]
    decide
  have hA : revoke_exceptions [⟨strLower eh, hst, nm⟩] [⟨strLower et, rl, tst, cr⟩] = [] := by
    unfold revoke_exceptions
    rw [List.filter_cons, hia]
    simp
  have hB : not_found_exceptions [⟨strLower eh, hst, nm⟩] [⟨strLower et, rl, tst, cr⟩] = [] := by
    have hcont : ((([⟨strLower eh, hst, nm⟩] : List HRRow)).map
        (fun h => h.official_email_address)).contains (strLower et) = true := by
      apply contains_eq_true_iff.mpr
      rw [← h1]
      simp
    unfold not_found_exceptions missing_in_hr
    simp [hcont]
    exact h1.symm
  unfold find_exceptions
  rw [hA, hB]
  rfl

/-- C7 witness: the case-insensitivity scenario of the specification, HR
email a@x.com with status active against application email A@X.com with
status ACTIVE, reconciles with zero exceptions. -/
theorem c7_case_insensitive_amended_witness :
    find_exceptions
        (validate_input_files [⟨"a@x.com", "active", "Jane"⟩]
          [⟨"A@X.com", "Admin", "ACTIVE", "2024-01-01"⟩]).1
        (validate_input_files [⟨"a@x.com", "active", "Jane"⟩]
          [⟨"A@X.com", "Admin", "ACTIVE", "2024-01-01"⟩]).2 = [] :=
  c7_case_insensitive_amended _ _ _ _ _ _ _ (by decide) (by decide)

/-- C8: find_exceptions never fails on an empty application record list
and returns the empty exception list for it, whatever the HR input, so
every classification count is zero. -/
theorem c8_empty_app (hr : List HRRow) : find_exceptions hr [] = [] := by
  unfold find_exceptions revoke_exceptions not_found_exceptions missing_in_hr
  simp

/-- C9: for an application email absent from the HR table, find_exceptions
emits exactly one exception row per application record bearing that email,
duplicates included, and every row with that email carries the placeholder
N/A as the employee name. -/
theorem c9_not_found_rows (hr : List HRRow) (tool : List ToolRow) (e : String)
    (h : (hr.map (fun h => h.official_email_address)).contains e = false) :
    ((find_exceptions hr tool).filter (fun x => x.email == e)).length =
      tool.countP (fun t => t.user_email == e)
  ∧ ((find_exceptions hr tool).filter (fun x => x.email == e)).all
      (fun x => x.employee_name == "N/A") = true := by
  constructor
  · rw [filter_find_exceptions, h]
    have hz : hr.countP
        (fun h2 => h2.official_email_address == e && inactiveStatus h2) = 0 := by
      rw [List.countP_eq_zero]
      intro h2 hh2 hp
      rw [Bool.and_eq_true] at hp
      have hmem : e ∈ hr.map (fun h3 => h3.official_email_address) :=
        List.mem_map.mpr ⟨h2, hh2, beq_iff_eq.mp hp.1⟩
      have hcontra := contains_eq_true_iff.mpr hmem
      rw [h] at hcontra
      exact absurd hcontra (by decide)
    rw [hz]
    simp
  · rw [List.all_eq_true]
    intro x hx
    rw [List.mem_filter] at hx
    rcases mem_find_exceptions hx.1 with
      ⟨h2, hh2, _, heml, _, _⟩ | ⟨hna, _, _⟩
    · exfalso
      have hxe : x.email = e := beq_iff_eq.mp hx.2
      have hmem : e ∈ hr.map (fun h3 => h3.official_email_address) :=
        List.mem_map.mpr ⟨h2, hh2, by rw [← heml, hxe]⟩
      have hcontra := contains_eq_true_iff.mpr hmem
      rw [h] at hcontra
      exact absurd hcontra (by decide)
    · rw [hna]
      decide

/-- C9 witness: two application records for bob, who is absent from HR,
yield exactly two exception rows, all with employee name N/A. -/
theorem c9_not_found_rows_witness :
    ((find_exceptions [⟨"jane@co.com", "Active", "Jane"⟩]
        [⟨"bob@co.com", "Viewer", "Active", "2024-01-01"⟩,
         ⟨"bob@co.com", "Admin", "Active", "2024-02-01"⟩]).filter
        (fun x => x.email == "bob@co.com")).length =
      ([⟨"bob@co.com", "Viewer", "Active", "2024-01-01"⟩,
        ⟨"bob@co.com", "Admin", "Active", "2024-02-01"⟩] : List ToolRow).countP
        (fun t => t.user_email == "bob@co.com")
  ∧ ((find_exceptions [⟨"jane@co.com", "Active", "Jane"⟩]
        [⟨"bob@co.com", "Viewer", "Active", "2024-01-01"⟩,
         ⟨"bob@co.com", "Admin", "Active", "2024-02-01"⟩]).filter
        (fun x => x.email == "bob@co.com")).all
        (fun x => x.employee_name == "N/A") = true :=
  c9_not_found_rows _ _ _ (by decide)

/-- C10: the Status Change field of the user-wise summary row is No Change
exactly when pre and post status are equal as strings, the comparison
being case-sensitive; in particular pre Active against post active is
reported as a change. -/
theorem c10_status_change
    (email panel_name pre_status post_status action_taken comments date_str : String) :
    ((get_user_summary_row email panel_name pre_status post_status action_taken
        comments date_str).status_change = "No Change" ↔ pre_status = post_status)
  ∧ (get_user_summary_row email panel_name "Active" "active" action_taken
      comments date_str).status_change ≠ "No Change" := by
  have key : ∀ pre post : String, pre ++ " â†’ " ++ post ≠ "No Change" := by
    intro pre post hcontra
    have hd := congrArg String.data hcontra
    rw [String.data_append, String.data_append] at hd
    have hmem : ('â' : Char) ∈ (pre.data ++ (" â†’ ").data) ++ post.data :=
      List.mem_append.mpr (Or.inl (List.mem_append.mpr (Or.inr (by decide))))
    rw [hd] at hmem
    exact absurd hmem (by decide)
  constructor
  · constructor
    · intro hsc
      by_contra hne
      have hb : (pre_status == post_status) = false := beq_eq_false_iff_ne.mpr hne
      have hval : (get_user_summary_row email panel_name pre_status post_status
          action_taken comments date_str).status_change =
          pre_status ++ " â†’ " ++ post_status := by
        unfold get_user_summary_row
        simp only [hb]
        rfl
      rw [hval] at hsc
      exact key _ _ hsc
    · intro heq
      subst heq
      unfold get_user_summary_row
      simp
  · intro hsc
    have hb : (("Active" : String) == "active") = false := by decide
    have hval : (get_user_summary_row email panel_name "Active" "active"
        action_taken comments date_str).status_change =
        "Active" ++ " â†’ " ++ "active" := by
      unfold get_user_summary_row
      simp only [hb]
      rfl
    rw [hval] at hsc
    exact key _ _ hsc

end Reconify
